import Mathlib

/-!
Verification of the biometric matching engine of the Smart-Medical-Glass
backend (`backend/services/face_service.py`, `backend/services/user_service.py`,
`backend/analyze_tolerance.py`, `backend/utils/image_processor.py`).

The external collaborators (the `face_recognition` library, OpenCV, the image
decoder) are modelled as an abstract environment of functions; the vectors and
distances the engine manipulates are embedded as rational numbers.  Every
definition below mirrors the control flow of the corresponding Python function.
-/

namespace SmartGlass

/-! ## Data model (`backend/models/face_encoding.py`) -/

/-- Mirror of the `FaceMatch` pydantic model. -/
structure FaceMatch where
  matched : Bool
  user_id : Option String
  confidence : Option ℚ
  distance : Option ℚ
deriving Repr, DecidableEq

/-- Mirror of `FaceEncodingWithMetadata`: one stored enrollment record. -/
structure FaceEncodingWithMetadata where
  user_id : String
  encoding : List ℚ
  name : String
  email : String
deriving Repr, DecidableEq

/-- Quality-gate rejection reasons produced by `validate_face_quality`.
`tooSmall` carries the face width and height interpolated in the message,
`tooBlurry` carries the Laplacian-variance score. -/
inductive QualityReason where
  | tooSmall (width height : Int)
  | tooBlurry (score : ℚ)
deriving Repr, DecidableEq

/-- The `(is_valid, reason)` pair returned by `validate_face_quality`:
`ok` stands for `(True, "Quality checks passed")`. -/
inductive QualityVerdict where
  | ok
  | rejected (r : QualityReason)
deriving Repr, DecidableEq

/-- The distinct `error` strings produced by `extract_encoding`, kept as a
structured type (each constructor is one of the f-strings of the source,
carrying the values interpolated into it). -/
inductive ExtractError where
  | depsUnavailable (msg : String)
  | imageProcessing (msg : String)
  | frNotInstalled
  | noFace
  | multipleFaces (n : Nat)
  | qualityFailed (r : QualityReason)
  | extractionFailed
deriving Repr, DecidableEq

/-- Mirror of the `FaceExtractionResult` pydantic model. -/
structure FaceExtractionResult where
  success : Bool
  encoding : Option (List ℚ)
  error : Option ExtractError
  face_count : Nat
deriving Repr, DecidableEq

/-! ## Environment: external collaborators

`ImageBytes` are raw upload bytes and `Pixels` a decoded pixel array; both are
opaque tokens.  A face location is the `(top, right, bottom, left)` tuple
returned by `face_recognition.face_locations`. -/

abbrev ImageBytes := Nat

abbrev Pixels := Nat

abbrev FaceLocation := Int × Int × Int × Int

/-- Behaviour of the third-party collaborators used by the engine:
`face_recognition`, OpenCV (`cv2`) and the image decoder.  Availability flags
model whether the corresponding `import` succeeds; `blurRaises` models the
blur-check `try` block raising an exception. -/
structure ExtractEnv where
  imageDepsAvailable : Bool
  importError : String
  frAvailable : Bool
  cv2Available : Bool
  preprocess : ImageBytes → Except String Pixels
  faceLocations : Pixels → List FaceLocation
  faceEncodings : Pixels → List FaceLocation → List (List ℚ)
  crop : Pixels → FaceLocation → Pixels
  laplacianVariance : Pixels → ℚ
  blurRaises : Pixels → Bool

/-! ## `ImageProcessor.check_blur` (`backend/utils/image_processor.py`) -/

/-- The variance score returned by `check_blur`; `inf` is the
`float('inf')` reported when `cv2` is unavailable. -/
inductive BlurScore where
  | inf
  | val (v : ℚ)
deriving Repr, DecidableEq

/-- Mirror of `ImageProcessor.check_blur`: returns `(is_blurry, variance)`; when `cv2`
is `None` it fails open with `(False, float('inf'))`. -/
def check_blur (env : ExtractEnv) (image : Pixels) (threshold : ℚ) : Bool × BlurScore :=
  if env.cv2Available = false then
    (false, BlurScore.inf)
  else
    let variance := env.laplacianVariance image
    (decide (variance < threshold), BlurScore.val variance)

/-! ## `FaceRecognitionService.validate_face_quality` -/

/-- Mirror of `FaceRecognitionService.validate_face_quality`: minimum 80x80 face size,
then blur detection on the face crop at threshold `100.0`; any exception in
the blur block is caught and the check passes (fail open). -/
def validate_face_quality (env : ExtractEnv) (image : Pixels)
    (face_location : FaceLocation) : QualityVerdict :=
  let top := face_location.1
  let right := face_location.2.1
  let bottom := face_location.2.2.1
  let left := face_location.2.2.2
  let face_height := bottom - top
  let face_width := right - left
  if face_height < 80 ∨ face_width < 80 then
    QualityVerdict.rejected (QualityReason.tooSmall face_width face_height)
  else
    let face_crop := env.crop image face_location
    if env.blurRaises face_crop then
      QualityVerdict.ok
    else
      match check_blur env face_crop 100 with
      | (true, BlurScore.val v) => QualityVerdict.rejected (QualityReason.tooBlurry v)
      | _ => QualityVerdict.ok

/-! ## `FaceRecognitionService.extract_encoding` -/

/-- Mirror of `FaceRecognitionService.extract_encoding`: dependency checks, image
preprocessing, face detection (exactly one face), quality gate, then encoding
extraction. -/
def extract_encoding (env : ExtractEnv) (image_bytes : ImageBytes) : FaceExtractionResult :=
  if env.imageDepsAvailable = false then
    ⟨false, none, some (ExtractError.depsUnavailable env.importError), 0⟩
  else
    match env.preprocess image_bytes with
    | Except.error e => ⟨false, none, some (ExtractError.imageProcessing e), 0⟩
    | Except.ok image =>
      if env.frAvailable = false then
        ⟨false, none, some ExtractError.frNotInstalled, 0⟩
      else
        match env.faceLocations image with
        | [] => ⟨false, none, some ExtractError.noFace, 0⟩
        | [loc] =>
          match validate_face_quality env image loc with
          | QualityVerdict.rejected r =>
              ⟨false, none, some (ExtractError.qualityFailed r), 1⟩
          | QualityVerdict.ok =>
            match env.faceEncodings image [loc] with
            | [] => ⟨false, none, some ExtractError.extractionFailed, 1⟩
            | enc :: _ => ⟨true, some enc, none, 1⟩
        | locs =>
            ⟨false, none, some (ExtractError.multipleFaces locs.length), locs.length⟩

/-! ## `FaceRecognitionService.process_face_images` (Enrollment Aggregator) -/

/-- The `FaceRecognitionError` messages raised by `process_face_images`:
`noImages` is `"No images provided"`, `processingFailed errs` is
`"Face processing failed: "` followed by the `"; "`-join of the angle-tagged
per-image error messages (an empty `errs` stands for the fallback text
`"No face detected in any of the images"`). -/
inductive ProcessError where
  | noImages
  | processingFailed (errors : List (String × ExtractError))
deriving Repr, DecidableEq

/-- Element-wise vector addition (one step of `np.mean(encodings, axis=0)`). -/
def vecAdd (a b : List ℚ) : List ℚ := List.zipWith (· + ·) a b

/-- Semantics of `np.mean(encodings, axis=0)`: element-wise sum divided by the number of
vectors. -/
def avgEncoding (encodings : List (List ℚ)) : List ℚ :=
  (encodings.foldr vecAdd (List.replicate (encodings.headD []).length 0)).map
    (fun x => x / encodings.length)

/-- The per-angle extraction results of the `process_face_images` loop. -/
def extractionResults (env : ExtractEnv) (images : List (String × ImageBytes)) :
    List (String × FaceExtractionResult) :=
  images.map (fun p => (p.1, extract_encoding env p.2))

/-- The `encodings` accumulator of the loop: the encodings of the results
with `result.success and result.encoding is not None`, in iteration order. -/
def successfulEncodings (env : ExtractEnv) (images : List (String × ImageBytes)) :
    List (List ℚ) :=
  (extractionResults env images).filterMap (fun p =>
    if p.2.success then p.2.encoding else none)

/-- The `errors` accumulator of the loop: for each non-collected result with
an error message, the pair standing for `f"{angle}: {result.error}"`. -/
def taggedErrors (env : ExtractEnv) (images : List (String × ImageBytes)) :
    List (String × ExtractError) :=
  (extractionResults env images).filterMap (fun p =>
    if p.2.success && p.2.encoding.isSome then none
    else p.2.error.map (fun e => (p.1, e)))

/-- Mirror of `FaceRecognitionService.process_face_images`: extract an encoding per
angle, collect successes and angle-tagged errors, fail if nothing succeeded,
otherwise average. -/
def process_face_images (env : ExtractEnv) (images : List (String × ImageBytes)) :
    Except ProcessError (List ℚ) :=
  if images.isEmpty then
    Except.error ProcessError.noImages
  else if (successfulEncodings env images).isEmpty then
    Except.error (ProcessError.processingFailed (taggedErrors env images))
  else
    Except.ok (avgEncoding (successfulEncodings env images))

/-! ## The file-backed Identity Store of the shipped service

`FaceRecognitionService.__init__` (face_service.py lines 33-36) assigns only
`self.tolerance` and `self._lock`.  No code in the repository ever assigns
`self.encodings_file` (the `from pathlib import Path` import is a dangling
leftover), and the method `_initialize_encodings_file` called at line 239 is
not defined anywhere — the repository's own `test_implementation.py` still
expects `service.encodings_file` to exist.  Every attribute read of
`self.encodings_file` therefore raises `AttributeError`. -/

/-- The `AttributeError` message produced by reading the never-assigned
`self.encodings_file` attribute. -/
def attributeErrorEncodingsFile : String :=
  "'FaceRecognitionService' object has no attribute 'encodings_file'"

/-- Mirror of `_load_encodings_storage` as shipped: the attribute read
`self.encodings_file.exists()` at face_service.py line 238 raises
`AttributeError` on every call, so the initialize-parse-return logic behind
it is dead code and the function never produces a storage value. -/
def load_encodings_storage : Except String (List FaceEncodingWithMetadata) :=
  Except.error attributeErrorEncodingsFile

/-- Mirror of `load_encodings` (face_service.py lines 215-229): any failure
of `_load_encodings_storage` is wrapped into
`FaceRecognitionError(f"Failed to load encodings: {e}")`. -/
def load_encodings : Except String (List FaceEncodingWithMetadata) :=
  match load_encodings_storage with
  | Except.error e => Except.error ("Failed to load encodings: " ++ e)
  | Except.ok storage => Except.ok storage

/-! ## `FaceRecognitionService.save_encoding` (Identity Store upsert) -/

/-- The upsert body of `save_encoding` (face_service.py lines 189-208),
operating on a loaded storage list: scan for the first record with the same
`user_id` and replace it, otherwise append the new record.  In the shipped
service this code is dead — the load that precedes it always raises. -/
def save_encoding_core (storage : List FaceEncodingWithMetadata) (user_id : String)
    (encoding : List ℚ) (name email : String) : List FaceEncodingWithMetadata :=
  let new_encoding : FaceEncodingWithMetadata := ⟨user_id, encoding, name, email⟩
  match storage.findIdx? (fun enc => enc.user_id == user_id) with
  | some i => storage.set i new_encoding
  | none => storage ++ [new_encoding]

/-- Mirror of `FaceRecognitionService.save_encoding` as shipped: the call to
`self._load_encodings_storage()` at face_service.py line 178 raises before
any mutation, and the surrounding `except Exception` (line 212) re-raises
`FaceRecognitionError(f"Failed to save encoding: {e}")`; the upsert-and-write
branch is reachable only through the dead `Except.ok` case. -/
def save_encoding (user_id : String) (encoding : List ℚ) (name email : String) :
    Except String (List FaceEncodingWithMetadata) :=
  match load_encodings_storage with
  | Except.error e => Except.error ("Failed to save encoding: " ++ e)
  | Except.ok storage =>
      Except.ok (save_encoding_core storage user_id encoding name email)

/-- A sequence of upsert steps (the effect the dead `save_encoding` body
would have), applied in order. -/
def saveAllCore (storage : List FaceEncodingWithMetadata)
    (calls : List (String × List ℚ × String × String)) : List FaceEncodingWithMetadata :=
  calls.foldl (fun st c => save_encoding_core st c.1 c.2.1 c.2.2.1 c.2.2.2) storage

/-! ## `FaceRecognitionService.find_match` (Matcher) -/

/-- The linear confidence `max(0.0, min(1.0, 1.0 - distance))`. -/
def clampConfidence (d : ℚ) : ℚ := max 0 (min 1 (1 - d))

/-- The best-match loop of `find_match`: running over the distances with
their indices, keep the strictly smallest distance seen so far
(`best_distance` starts at `float('inf')`, modelled by the `none`
accumulator). -/
def findBest : Nat → Option (Nat × ℚ) → List ℚ → Option (Nat × ℚ)
  | _, best, [] => best
  | i, best, d :: rest =>
    let best' := match best with
      | none => some (i, d)
      | some (_, bd) => if d < bd then some (i, d) else best
    findBest (i + 1) best' rest

/-- The default record used to total `List.getD` on the stored encodings;
never reached because the best index is always in range. -/
def defaultRecord : FaceEncodingWithMetadata := ⟨"", [], "", ""⟩

/-- The body of `find_match` after the stored encodings are loaded
(face_service.py lines 266-323): if the population is empty, an all-null
no-match; otherwise scan all distances for the strict minimum (first
encountered wins) and compare it with the tolerance.  The distance function
of `face_recognition.face_distance` is an abstract parameter.  In the
shipped service this code is dead — `self.load_encodings()` above it always
raises. -/
def find_match_core (dist : List ℚ → List ℚ → ℚ) (tolerance : ℚ)
    (stored_encodings : List FaceEncodingWithMetadata) (encoding : List ℚ) : FaceMatch :=
  if stored_encodings.isEmpty then
    ⟨false, none, none, none⟩
  else
    let face_distances := stored_encodings.map (fun enc => dist enc.encoding encoding)
    match findBest 0 none face_distances with
    | some (best_match_index, best_distance) =>
      let best := (stored_encodings.getD best_match_index defaultRecord).user_id
      if best_distance ≤ tolerance then
        ⟨true, some best, some (clampConfidence best_distance), some best_distance⟩
      else
        ⟨false, some best, some (clampConfidence best_distance), some best_distance⟩
    | none => ⟨false, none, some 0, none⟩

/-- Mirror of `FaceRecognitionService.find_match` as shipped: the
`face_recognition` import is attempted first — on `ImportError` the all-null
no-match is returned (lines 256-264, the only reachable return); then
`self.load_encodings()` runs, which raises on every call of the shipped
service, and the surrounding `except Exception` (line 325) re-raises
`FaceRecognitionError(f"Face matching failed: {e}")`, so the matching core
is reachable only through the dead `Except.ok` case. -/
def find_match (dist : List ℚ → List ℚ → ℚ) (tolerance : ℚ) (frAvailable : Bool)
    (encoding : List ℚ) : Except String FaceMatch :=
  if frAvailable = false then
    Except.ok ⟨false, none, none, none⟩
  else
    match load_encodings with
    | Except.error e => Except.error ("Face matching failed: " ++ e)
    | Except.ok stored_encodings =>
        Except.ok (find_match_core dist tolerance stored_encodings encoding)

/-! ## Registration flow (`backend/services/user_service.py`) -/

/-- Mirror of the request fields used by the registration flow. -/
structure RegistrationRequest where
  name : String
  email : String
  password : String
deriving Repr, DecidableEq

/-- A persisted `users` row (the fields relevant to the engine). -/
structure UserRecord where
  name : String
  email : String
  password_hash : String
  face_encoding : List ℚ
deriving Repr, DecidableEq

/-- The persistent state the registration flow touches: the user table and
the enrolled-encodings population the Duplicate Guard was intended to
search. -/
structure Store where
  users : List UserRecord
  encodings : List FaceEncodingWithMetadata
deriving Repr, DecidableEq

/-- The `HTTPException`s raised by the registration flow (status and
`detail` string): `badRequest` is status 400, `conflict` status 409,
`internalError` status 500. -/
inductive RegError where
  | badRequest (detail : String)
  | conflict (detail : String)
  | internalError (detail : String)
deriving Repr, DecidableEq

/-- The `AttributeError` raised at user_service.py line 70:
`collect_face_images` is a module-level function of face_service.py (line
528), not a method of `FaceRecognitionService`, so
`face_service.collect_face_images(face_images_dict)` fails on every call. -/
def attributeErrorCollect : String :=
  "'FaceRecognitionService' object has no attribute 'collect_face_images'"

/-- Mirror of `register_new_user` with `_validate_registration` and
`_process_face_data` as shipped: after password validation and the
email-existence check, the first statement of `_process_face_data`'s `try`
block — `face_service.collect_face_images(face_images_dict)` — raises
`AttributeError`; the `except FaceRecognitionError` clause does not match it
and the `except Exception` clause (user_service.py lines 89-91) re-raises
`HTTPException(500, f"Face processing failed: {str(e)}")`.  The aggregation,
the duplicate guard with its `HTTPException(409)` (lines 75-83) and
`_persist_user_registration` (which would call the likewise nonexistent
`face_service.upload_face_images`) are unreachable. -/
def register_new_user (validatePassword : String → Option String)
    (store : Store) (request : RegistrationRequest)
    (_face_images : List (String × ImageBytes)) : Store × Except RegError UserRecord :=
  match validatePassword request.password with
  | some msg => (store, Except.error (RegError.badRequest msg))
  | none =>
    if store.users.any (fun u => u.email == request.email) then
      (store, Except.error (RegError.conflict "User with this email already exists"))
    else
      (store, Except.error (RegError.internalError
        ("Face processing failed: " ++ attributeErrorCollect)))

/-! ## Tolerance calibrator (`backend/analyze_tolerance.py`) -/

/-- Total version of `np.max` on a list (via `headD`; equals the maximum on nonempty
lists, which is the only way the source uses it). -/
def npMax (l : List ℚ) : ℚ := l.foldl max (l.headD 0)

/-- Total version of `np.min` on a list. -/
def npMin (l : List ℚ) : ℚ := l.foldl min (l.headD 0)

/-- False-accept rate (percent): fraction of negative distances strictly
below the threshold; `0` when there are no negative pairs. -/
def falseAcceptRate (negative_distances : List ℚ) (threshold : ℚ) : ℚ :=
  if negative_distances.isEmpty then 0
  else ((negative_distances.countP (fun d => d < threshold) : ℚ) /
    negative_distances.length) * 100

/-- False-reject rate (percent): fraction of positive distances strictly
above the threshold; `0` when there are no positive pairs. -/
def falseRejectRate (positive_distances : List ℚ) (threshold : ℚ) : ℚ :=
  if positive_distances.isEmpty then 0
  else ((positive_distances.countP (fun d => threshold < d) : ℚ) /
    positive_distances.length) * 100

/-- The accuracy `100 - (far + frr)` at a candidate threshold. -/
def accuracy (positive_distances negative_distances : List ℚ) (threshold : ℚ) : ℚ :=
  100 - (falseAcceptRate negative_distances threshold +
    falseRejectRate positive_distances threshold)

/-- The swept candidate grid `for t in range(30, 80, 5): threshold = t / 100.0`,
i.e. `[0.30, 0.35, ..., 0.75]`. -/
def toleranceGrid : List ℚ := (List.range' 30 10 5).map (fun t => (t : ℚ) / 100)

/-- The sweep loop of `analyze_dataset`: starting from
`best_accuracy = 0, best_threshold = 0.6`, update on strict improvement. -/
def sweepBest (positive_distances negative_distances : List ℚ) : ℚ × ℚ :=
  toleranceGrid.foldl (fun best threshold =>
    let acc := accuracy positive_distances negative_distances threshold
    if best.1 < acc then (acc, threshold) else best) (0, 6 / 10)

/-- The tolerance recommended by `analyze_dataset`. -/
def recommendedTolerance (positive_distances negative_distances : List ℚ) : ℚ :=
  (sweepBest positive_distances negative_distances).2

/-- The perfect-separation report: `gap = np.min(neg) - np.max(pos); gap > 0`. -/
def perfectSeparation (positive_distances negative_distances : List ℚ) : Bool :=
  decide (0 < npMin negative_distances - npMax positive_distances)

/-! ## Characterization of the best-match loop -/

theorem findBest_nil (k : Nat) (b : Option (Nat × ℚ)) : findBest k b [] = b := rfl

theorem findBest_cons_none (i : Nat) (d : ℚ) (rest : List ℚ) :
    findBest i none (d :: rest) = findBest (i + 1) (some (i, d)) rest := rfl

theorem findBest_cons_some (i i0 : Nat) (d0 d : ℚ) (rest : List ℚ) :
    findBest i (some (i0, d0)) (d :: rest) =
      findBest (i + 1) (if d < d0 then some (i, d) else some (i0, d0)) rest := by
  by_cases hd : d < d0 <;> simp [findBest, hd]

/-- Running the strict-improvement loop from an already-chosen candidate:
either nothing improves on it, or the result is the first entry of the list
attaining the overall minimum. -/
theorem findBest_acc_spec (ds : List ℚ) : ∀ (k i0 : Nat) (d0 : ℚ),
    (findBest k (some (i0, d0)) ds = some (i0, d0) ∧ ∀ x ∈ ds, d0 ≤ x)
    ∨ (∃ j, j < ds.length ∧ findBest k (some (i0, d0)) ds = some (k + j, ds.getD j 0)
        ∧ ds.getD j 0 < d0 ∧ (∀ x ∈ ds, ds.getD j 0 ≤ x)
        ∧ (∀ l, l < j → ds.getD j 0 < ds.getD l 0)) := by
  induction ds with
  | nil =>
    intro k i0 d0
    left
    exact ⟨rfl, by simp⟩
  | cons d rest ih =>
    intro k i0 d0
    by_cases hd : d < d0
    · have hstep : findBest k (some (i0, d0)) (d :: rest) = findBest (k + 1) (some (k, d)) rest := by
        rw [findBest_cons_some, if_pos hd]
      rcases ih (k + 1) k d with ⟨heq, hall⟩ | ⟨j, hj, heq, hlt, hall, hfirst⟩
      · right
        refine ⟨0, by simp, ?_, by simpa using hd, ?_, ?_⟩
        · rw [hstep, heq]; simp
        · intro x hx
          rcases List.mem_cons.mp hx with rfl | hx
          · simp
          · simpa using hall x hx
        · intro l hl; omega
      · right
        refine ⟨j + 1, by simpa using hj, ?_, ?_, ?_, ?_⟩
        · rw [hstep, heq, List.getD_cons_succ]
          congr 2
          omega
        · rw [List.getD_cons_succ]
          exact lt_trans hlt hd
        · intro x hx
          rw [List.getD_cons_succ]
          rcases List.mem_cons.mp hx with rfl | hx
          · exact le_of_lt hlt
          · exact hall x hx
        · intro l hl
          rw [List.getD_cons_succ]
          match l, hl with
          | 0, _ => simpa using hlt
          | l' + 1, hl => simpa using hfirst l' (by omega)
    · have hd' : d0 ≤ d := le_of_not_lt hd
      have hstep : findBest k (some (i0, d0)) (d :: rest) =
          findBest (k + 1) (some (i0, d0)) rest := by
        rw [findBest_cons_some, if_neg hd]
      rcases ih (k + 1) i0 d0 with ⟨heq, hall⟩ | ⟨j, hj, heq, hlt, hall, hfirst⟩
      · left
        refine ⟨by rw [hstep, heq], ?_⟩
        intro x hx
        rcases List.mem_cons.mp hx with rfl | hx
        · exact hd'
        · exact hall x hx
      · right
        refine ⟨j + 1, by simpa using hj, ?_, ?_, ?_, ?_⟩
        · rw [hstep, heq, List.getD_cons_succ]
          congr 2
          omega
        · rw [List.getD_cons_succ]
          exact hlt
        · intro x hx
          rw [List.getD_cons_succ]
          rcases List.mem_cons.mp hx with rfl | hx
          · exact le_trans (le_of_lt hlt) hd'
          · exact hall x hx
        · intro l hl
          rw [List.getD_cons_succ]
          match l, hl with
          | 0, _ => simpa using lt_of_lt_of_le hlt hd'
          | l' + 1, hl => simpa using hfirst l' (by omega)

/-- The best-match loop on a nonempty list of distances returns the first
index attaining the minimum distance. -/
theorem findBest_spec (ds : List ℚ) (h : ds ≠ []) :
    ∃ i d, findBest 0 none ds = some (i, d) ∧ i < ds.length ∧ ds.getD i 0 = d
      ∧ (∀ x ∈ ds, d ≤ x) ∧ (∀ l, l < i → d < ds.getD l 0) := by
  match ds, h with
  | d :: rest, _ =>
    rw [findBest_cons_none]
    rcases findBest_acc_spec rest 1 0 d with ⟨heq, hall⟩ | ⟨j, hj, heq, hlt, hall, hfirst⟩
    · refine ⟨0, d, heq, by simp, by simp, ?_, by omega⟩
      intro x hx
      rcases List.mem_cons.mp hx with rfl | hx
      · exact le_refl x
      · exact hall x hx
    · refine ⟨1 + j, rest.getD j 0, heq, by simpa using by omega, ?_, ?_, ?_⟩
      · have : 1 + j = j + 1 := by omega
        rw [this, List.getD_cons_succ]
      · intro x hx
        rcases List.mem_cons.mp hx with rfl | hx
        · exact le_of_lt hlt
        · exact hall x hx
      · intro l hl
        match l, hl with
        | 0, _ => simpa using hlt
        | l' + 1, hl => simpa using hfirst l' (by omega)

/-- Reading `getD` through a `map` into the distances list. -/
theorem getD_map_record (f : FaceEncodingWithMetadata → ℚ)
    (stored : List FaceEncodingWithMetadata) (j : Nat) (hj : j < stored.length) :
    (stored.map f).getD j 0 = f (stored.getD j defaultRecord) := by
  rw [List.getD_eq_getElem (stored.map f) 0 (by simpa using hj),
    List.getD_eq_getElem stored defaultRecord hj, List.getElem_map]

/-- Unfolding `find_match` on a nonempty population, given the outcome of the
best-match loop. -/
theorem find_match_core_eq (dist : List ℚ → List ℚ → ℚ) (tol : ℚ)
    (stored : List FaceEncodingWithMetadata) (probe : List ℚ) (i : Nat) (d : ℚ)
    (hne : stored ≠ [])
    (hfb : findBest 0 none (stored.map (fun enc => dist enc.encoding probe)) = some (i, d)) :
    find_match_core dist tol stored probe =
      if d ≤ tol then
        ⟨true, some (stored.getD i defaultRecord).user_id, some (clampConfidence d), some d⟩
      else
        ⟨false, some (stored.getD i defaultRecord).user_id, some (clampConfidence d), some d⟩ := by
  have hempty : stored.isEmpty = false := by
    simpa [List.isEmpty_iff] using hne
  simp only [find_match_core, hempty, hfb, Bool.false_eq_true, if_false]

/-! ## Claim theorems -/

/-- Claim C1 (code bug): the claimed matching algorithm is implemented
verbatim at face_service.py lines 266-323, but as dead code.  Because
`__init__` never assigns `encodings_file` and `_initialize_encodings_file`
is undefined, `self.load_encodings()` raises on every call, so the shipped
`find_match` raises `FaceRecognitionError` on every
`face_recognition`-available call and never returns a `FaceMatch`.  The
first conjuncts evaluate the shipped entry point at the failing input; the
rest characterize the dead core, which does implement exactly the claimed
behaviour: empty population → all-null no-match, nonempty →
first-encountered minimum-distance record, `matched=true` exactly when that
minimum is at most the tolerance, and the best candidate's `user_id`,
distance and `clamp(1 - distance, 0, 1)` confidence carried either way. -/
theorem find_match_storage_bug (dist : List ℚ → List ℚ → ℚ) (tol : ℚ)
    (stored : List FaceEncodingWithMetadata) (probe : List ℚ) (hne : stored ≠ []) :
    find_match dist tol true probe =
      Except.error ("Face matching failed: " ++
        ("Failed to load encodings: " ++ attributeErrorEncodingsFile)) ∧
    (∀ m : FaceMatch, find_match dist tol true probe ≠ Except.ok m) ∧
    find_match_core dist tol [] probe = ⟨false, none, none, none⟩ ∧
    ∃ i, i < stored.length ∧
      (∀ e ∈ stored, dist (stored.getD i defaultRecord).encoding probe ≤ dist e.encoding probe) ∧
      (∀ j, j < i → dist (stored.getD i defaultRecord).encoding probe <
        dist (stored.getD j defaultRecord).encoding probe) ∧
      find_match_core dist tol stored probe =
        (if dist (stored.getD i defaultRecord).encoding probe ≤ tol then
          ⟨true, some (stored.getD i defaultRecord).user_id,
            some (clampConfidence (dist (stored.getD i defaultRecord).encoding probe)),
            some (dist (stored.getD i defaultRecord).encoding probe)⟩
        else
          ⟨false, some (stored.getD i defaultRecord).user_id,
            some (clampConfidence (dist (stored.getD i defaultRecord).encoding probe)),
            some (dist (stored.getD i defaultRecord).encoding probe)⟩) := by
  refine ⟨rfl, ?_, rfl, ?_⟩
  · intro m
    simp [find_match, load_encodings, load_encodings_storage]
  · have hds : stored.map (fun enc => dist enc.encoding probe) ≠ [] := by
      simpa using hne
    obtain ⟨i, d, hfb, hi, hgd, hall, hfirst⟩ :=
      findBest_spec (stored.map (fun enc => dist enc.encoding probe)) hds
    have hi' : i < stored.length := by simpa using hi
    have hd : dist (stored.getD i defaultRecord).encoding probe = d := by
      rw [← hgd, getD_map_record _ stored i hi']
    refine ⟨i, hi', ?_, ?_, ?_⟩
    · intro e he
      rw [hd]
      exact hall _ (List.mem_map_of_mem _ he)
    · intro j hj
      rw [hd, ← getD_map_record (fun enc => dist enc.encoding probe) stored j (lt_trans hj hi')]
      exact hfirst j hj
    · rw [hd]
      exact find_match_core_eq dist tol stored probe i d hne hfb

/-- Population and probe used by the concrete matcher witnesses. -/
def witnessPop : List FaceEncodingWithMetadata :=
  [⟨"alice", [0], "Alice", "alice@x"⟩, ⟨"bob", [1], "Bob", "bob@x"⟩]

/-- A concrete distance function for witnesses: distance of a stored vector
`v` to the probe is the first component of `v`. -/
def witnessDist : List ℚ → List ℚ → ℚ := fun v _ => v.headD 0

/-- Witness for **C1** at a concrete nonempty population. -/
theorem find_match_storage_bug_witness :
    find_match witnessDist (6 / 10) true [5] =
      Except.error ("Face matching failed: " ++
        ("Failed to load encodings: " ++ attributeErrorEncodingsFile)) ∧
    (∀ m : FaceMatch, find_match witnessDist (6 / 10) true [5] ≠ Except.ok m) ∧
    find_match_core witnessDist (6 / 10) [] [5] = ⟨false, none, none, none⟩ ∧
    ∃ i, i < witnessPop.length ∧
      (∀ e ∈ witnessPop, witnessDist (witnessPop.getD i defaultRecord).encoding [5] ≤
        witnessDist e.encoding [5]) ∧
      (∀ j, j < i → witnessDist (witnessPop.getD i defaultRecord).encoding [5] <
        witnessDist (witnessPop.getD j defaultRecord).encoding [5]) ∧
      find_match_core witnessDist (6 / 10) witnessPop [5] =
        (if witnessDist (witnessPop.getD i defaultRecord).encoding [5] ≤ 6 / 10 then
          ⟨true, some (witnessPop.getD i defaultRecord).user_id,
            some (clampConfidence (witnessDist (witnessPop.getD i defaultRecord).encoding [5])),
            some (witnessDist (witnessPop.getD i defaultRecord).encoding [5])⟩
        else
          ⟨false, some (witnessPop.getD i defaultRecord).user_id,
            some (clampConfidence (witnessDist (witnessPop.getD i defaultRecord).encoding [5])),
            some (witnessDist (witnessPop.getD i defaultRecord).encoding [5])⟩) :=
  find_match_storage_bug witnessDist (6 / 10) witnessPop [5] (by simp [witnessPop])

/-- Claim C8 (code bug): monotonicity in the tolerance holds of the dead
matching core — the best-candidate scan does not consult the tolerance, so a
core match at tolerance `tol` is the identical result at every
`tol' ≥ tol` — but the shipped `find_match` raises on every
`face_recognition`-available call (the broken store, see
`attributeErrorEncodingsFile`), so it never reports `matched=true` at any
tolerance and the claimed premise is unrealizable on the shipped entry
point. -/
theorem find_match_monotonicity_bug (dist : List ℚ → List ℚ → ℚ) (tol tol' : ℚ)
    (stored : List FaceEncodingWithMetadata) (probe : List ℚ) (hT : tol ≤ tol')
    (hm : (find_match_core dist tol stored probe).matched = true) :
    find_match_core dist tol' stored probe = find_match_core dist tol stored probe ∧
    (find_match_core dist tol' stored probe).matched = true ∧
    (∀ m : FaceMatch, find_match dist tol true probe ≠ Except.ok m) := by
  have hdead : ∀ m : FaceMatch, find_match dist tol true probe ≠ Except.ok m := by
    intro m
    simp [find_match, load_encodings, load_encodings_storage]
  rcases List.eq_nil_or_concat stored with rfl | _
  · exact absurd hm (by simp [find_match_core])
  · have hne : stored ≠ [] := by
      rintro rfl
      exact absurd hm (by simp [find_match_core])
    have hds : stored.map (fun enc => dist enc.encoding probe) ≠ [] := by
      simpa using hne
    obtain ⟨i, d, hfb, -, -, -, -⟩ :=
      findBest_spec (stored.map (fun enc => dist enc.encoding probe)) hds
    have h1 := find_match_core_eq dist tol stored probe i d hne hfb
    have h2 := find_match_core_eq dist tol' stored probe i d hne hfb
    by_cases hdt : d ≤ tol
    · have hdt' : d ≤ tol' := le_trans hdt hT
      rw [h1, if_pos hdt, h2, if_pos hdt']
      exact ⟨rfl, rfl, hdead⟩
    · rw [h1, if_neg hdt] at hm
      exact absurd hm (by simp)

/-- Witness for **C8** at a concrete core-matched probe and enlarged
tolerance. -/
theorem find_match_monotonicity_bug_witness :
    find_match_core witnessDist (7 / 10) witnessPop [5] =
      find_match_core witnessDist (6 / 10) witnessPop [5] ∧
    (find_match_core witnessDist (7 / 10) witnessPop [5]).matched = true ∧
    (∀ m : FaceMatch, find_match witnessDist (6 / 10) true [5] ≠ Except.ok m) :=
  find_match_monotonicity_bug witnessDist (6 / 10) (7 / 10) witnessPop [5]
    (by norm_num)
    (by norm_num [find_match_core, witnessPop, witnessDist, findBest, clampConfidence,
      defaultRecord])

/-- Environment for the **C5** counterexample: one sufficiently large face
whose crop has Laplacian variance `90`, strictly between the claimed
recognition threshold `80` and the implemented threshold `100`. -/
def envC5 : ExtractEnv :=
  { imageDepsAvailable := true, importError := "", frAvailable := true, cv2Available := true,
    preprocess := fun b => Except.ok b,
    faceLocations := fun _ => [(0, 100, 100, 0)],
    faceEncodings := fun _ _ => [[1, 2]],
    crop := fun p _ => p,
    laplacianVariance := fun _ => 90,
    blurRaises := fun _ => false }

/-- Counterexample to claim C5: the single quality gate of `extract_encoding` —
the same gate the recognition endpoint calls — rejects a face crop of
variance `90` as too blurry, although a dedicated `80.0` recognition
threshold would have accepted it; the implemented threshold is `100.0`
everywhere. -/
theorem quality_gate_threshold_counterexample :
    extract_encoding envC5 0 =
      ⟨false, none, some (ExtractError.qualityFailed (QualityReason.tooBlurry 90)), 1⟩ ∧
    ¬((90 : ℚ) < 80) := by
  constructor
  · norm_num [extract_encoding, envC5, validate_face_quality, check_blur]
  · norm_num

/-- Claim C5, amended: the quality gate applies its rules in order with the
first failure winning and the specific reason surfaced: exactly one face
(zero and several faces are distinct hard failures), then the 80px minimum
bounding box, then Laplacian-variance sharpness at least `100.0` — the single
fixed threshold used for both enrollment and recognition. -/
theorem quality_gate_order_spec (env : ExtractEnv) (ib : ImageBytes) (px : Pixels)
    (hdeps : env.imageDepsAvailable = true) (hpre : env.preprocess ib = Except.ok px)
    (hfr : env.frAvailable = true) :
    (env.faceLocations px = [] →
      extract_encoding env ib = ⟨false, none, some ExtractError.noFace, 0⟩) ∧
    (2 ≤ (env.faceLocations px).length →
      extract_encoding env ib = ⟨false, none,
        some (ExtractError.multipleFaces (env.faceLocations px).length),
        (env.faceLocations px).length⟩) ∧
    (∀ t r b l, env.faceLocations px = [(t, r, b, l)] →
      (b - t < 80 ∨ r - l < 80) →
      extract_encoding env ib = ⟨false, none,
        some (ExtractError.qualityFailed (QualityReason.tooSmall (r - l) (b - t))), 1⟩) ∧
    (∀ t r b l, env.faceLocations px = [(t, r, b, l)] →
      ¬(b - t < 80 ∨ r - l < 80) →
      env.blurRaises (env.crop px (t, r, b, l)) = false →
      env.cv2Available = true →
      env.laplacianVariance (env.crop px (t, r, b, l)) < 100 →
      extract_encoding env ib = ⟨false, none,
        some (ExtractError.qualityFailed
          (QualityReason.tooBlurry (env.laplacianVariance (env.crop px (t, r, b, l))))), 1⟩) ∧
    (∀ t r b l enc rest, env.faceLocations px = [(t, r, b, l)] →
      ¬(b - t < 80 ∨ r - l < 80) →
      env.blurRaises (env.crop px (t, r, b, l)) = false →
      env.cv2Available = true →
      ¬(env.laplacianVariance (env.crop px (t, r, b, l)) < 100) →
      env.faceEncodings px [(t, r, b, l)] = enc :: rest →
      extract_encoding env ib = ⟨true, some enc, none, 1⟩) := by
  refine ⟨?_, ?_, ?_, ?_, ?_⟩
  · intro hL
    simp [extract_encoding, hdeps, hpre, hfr, hL]
  · intro hlen
    rcases hL : env.faceLocations px with - | ⟨a, - | ⟨b, rest⟩⟩
    · rw [hL] at hlen; simp at hlen
    · rw [hL] at hlen; simp at hlen
    · simp [extract_encoding, hdeps, hpre, hfr, hL]
  · intro t r b l hL hsz
    simp [extract_encoding, hdeps, hpre, hfr, hL, validate_face_quality, hsz]
  · intro t r b l hL hsz hraise hcv hvar
    simp [extract_encoding, hdeps, hpre, hfr, hL, validate_face_quality, hsz, hraise,
      check_blur, hcv, hvar]
  · intro t r b l enc rest hL hsz hraise hcv hvar henc
    simp [extract_encoding, hdeps, hpre, hfr, hL, validate_face_quality, hsz, hraise,
      check_blur, hcv, hvar, henc]

/-- Witness for the amended **C5**, exercising the too-blurry branch at a
concrete environment (variance 90 < 100). -/
theorem quality_gate_order_spec_witness :
    extract_encoding envC5 0 = ⟨false, none,
      some (ExtractError.qualityFailed (QualityReason.tooBlurry 90)), 1⟩ := by
  have h := (quality_gate_order_spec envC5 0 0 rfl rfl rfl).2.2.2.1 0 100 100 0 rfl
    (by norm_num) rfl rfl (by norm_num [envC5])
  simpa [envC5] using h

/-- Claim C10: the blur check fails open — when the earlier size gate passes
and the sharpness measurement itself cannot be performed (the blur block
raises, or `cv2` is unavailable, in which case the variance is reported as
infinity), `validate_face_quality` still accepts the image. -/
theorem blur_check_fails_open (env : ExtractEnv) (px : Pixels) (loc : FaceLocation)
    (hsize : ¬(loc.2.2.1 - loc.1 < 80 ∨ loc.2.1 - loc.2.2.2 < 80))
    (h : env.blurRaises (env.crop px loc) = true ∨ env.cv2Available = false) :
    validate_face_quality env px loc = QualityVerdict.ok ∧
    (env.cv2Available = false →
      check_blur env (env.crop px loc) 100 = (false, BlurScore.inf)) := by
  obtain ⟨t, r, b, l⟩ := loc
  constructor
  · rcases h with hraise | hcv
    · simp [validate_face_quality, hsize, hraise]
    · by_cases hraise : env.blurRaises (env.crop px (t, r, b, l)) = true
      · simp [validate_face_quality, hsize, hraise]
      · simp [validate_face_quality, hsize, hraise, check_blur, hcv]
  · intro hcv
    simp [check_blur, hcv]

/-- Environment for the **C10** witness: a large face whose blur block
raises. -/
def envRaise : ExtractEnv :=
  { envC5 with blurRaises := fun _ => true }

/-- Environment for the **C10** witness: `cv2` unavailable. -/
def envNoCv : ExtractEnv :=
  { envC5 with cv2Available := false }

/-- Witness for **C10** at concrete environments, both for the raising blur
block and for the missing `cv2` dependency. -/
theorem blur_check_fails_open_witness :
    (validate_face_quality envRaise 0 (0, 100, 100, 0) = QualityVerdict.ok) ∧
    (validate_face_quality envNoCv 0 (0, 100, 100, 0) = QualityVerdict.ok ∧
      (envNoCv.cv2Available = false →
        check_blur envNoCv (envNoCv.crop 0 (0, 100, 100, 0)) 100 = (false, BlurScore.inf))) :=
  ⟨(blur_check_fails_open envRaise 0 (0, 100, 100, 0) (by norm_num) (Or.inl rfl)).1,
    blur_check_fails_open envNoCv 0 (0, 100, 100, 0) (by norm_num) (Or.inr rfl)⟩

/-! ## Averaging lemmas -/

theorem vecAdd_left_comm (a b c : List ℚ) : vecAdd a (vecAdd b c) = vecAdd b (vecAdd a c) := by
  induction a generalizing b c with
  | nil => cases b <;> simp [vecAdd]
  | cons x xs ih =>
    cases b with
    | nil => simp [vecAdd]
    | cons y ys =>
      cases c with
      | nil => simp [vecAdd]
      | cons z zs =>
        simp only [vecAdd, List.zipWith_cons_cons] at ih ⊢
        rw [ih ys zs]
        congr 1
        ring

instance : LeftCommutative vecAdd := ⟨vecAdd_left_comm⟩

theorem length_vecAdd (a b : List ℚ) : (vecAdd a b).length = min a.length b.length := by
  induction a generalizing b with
  | nil => simp [vecAdd]
  | cons x xs ih =>
    cases b with
    | nil => simp [vecAdd]
    | cons y ys => simp [vecAdd, Nat.succ_min_succ, ih ys]

theorem getD_vecAdd (a b : List ℚ) (k : Nat) (ha : k < a.length) (hb : k < b.length) :
    (vecAdd a b).getD k 0 = a.getD k 0 + b.getD k 0 := by
  induction a generalizing b k with
  | nil => simp at ha
  | cons x xs ih =>
    cases b with
    | nil => simp at hb
    | cons y ys =>
      cases k with
      | zero => simp [vecAdd]
      | succ k' =>
        simpa [vecAdd] using ih ys k' (by simpa using ha) (by simpa using hb)

/-- The element-wise sum inside `np.mean(encodings, axis=0)` has the common
dimension of the vectors. -/
theorem sumVec_length (n : Nat) (vs : List (List ℚ)) (hdim : ∀ v ∈ vs, v.length = n) :
    (vs.foldr vecAdd (List.replicate n 0)).length = n := by
  induction vs with
  | nil => simp
  | cons v t ih =>
    have hv : v.length = n := hdim v (by simp)
    have ht : (t.foldr vecAdd (List.replicate n 0)).length = n :=
      ih (fun u hu => hdim u (List.mem_cons_of_mem _ hu))
    simp [length_vecAdd, hv, ht]

/-- Each component of the element-wise sum is the sum of that component. -/
theorem sumVec_getD (n k : Nat) (vs : List (List ℚ)) (hdim : ∀ v ∈ vs, v.length = n)
    (hk : k < n) :
    (vs.foldr vecAdd (List.replicate n 0)).getD k 0 = (vs.map (fun v => v.getD k 0)).sum := by
  induction vs with
  | nil =>
    rw [List.foldr_nil, List.getD_eq_getElem _ 0 (by simpa using hk)]
    simp
  | cons v t ih =>
    have hv : v.length = n := hdim v (by simp)
    have hdim' : ∀ u ∈ t, u.length = n := fun u hu => hdim u (List.mem_cons_of_mem _ hu)
    have ht : (t.foldr vecAdd (List.replicate n 0)).length = n := sumVec_length n t hdim'
    rw [List.foldr_cons, getD_vecAdd _ _ k (by omega) (by omega), ih hdim']
    simp

/-- Claim C9: enrollment averaging is order-independent: permuting the list of
successfully extracted vectors (all of the same dimension) does not change
the canonical vector `np.mean` computes. -/
theorem avg_encoding_order_independent (n : Nat) (l l' : List (List ℚ))
    (hperm : l.Perm l') (hdim : ∀ v ∈ l, v.length = n) :
    avgEncoding l = avgEncoding l' := by
  have hhead : (l.headD []).length = (l'.headD []).length := by
    cases l with
    | nil =>
      have : l' = [] := hperm.symm.eq_nil
      rw [this]
    | cons a t =>
      cases l' with
      | nil => exact absurd hperm.eq_nil (by simp)
      | cons b t' =>
        have ha : a.length = n := hdim a (by simp)
        have hb : b.length = n := hdim b (hperm.mem_iff.mpr (by simp))
        simp [ha, hb]
  unfold avgEncoding
  rw [hperm.length_eq, hhead, hperm.foldr_eq]

/-- Witness for **C9** on a concrete swap of two vectors. -/
theorem avg_encoding_order_independent_witness :
    avgEncoding [[1, 2], [3, 4]] = avgEncoding [[3, 4], [1, 2]] :=
  avg_encoding_order_independent 2 [[1, 2], [3, 4]] [[3, 4], [1, 2]]
    (List.Perm.swap [3, 4] [1, 2] []) (by simp)

/-! ## Aggregator lemmas and C3 -/

/-- Every result of `extract_encoding` is either a success carrying an
encoding and no error, or a failure carrying no encoding and an error. -/
theorem extract_encoding_cases (env : ExtractEnv) (ib : ImageBytes) :
    ((extract_encoding env ib).success = true ∧ (extract_encoding env ib).encoding.isSome ∧
      (extract_encoding env ib).error = none) ∨
    ((extract_encoding env ib).success = false ∧ (extract_encoding env ib).encoding = none ∧
      (extract_encoding env ib).error.isSome) := by
  unfold extract_encoding
  repeat' split
  all_goals simp

/-- If the loop collected no encoding, then every per-angle extraction
failed. -/
theorem successfulEncodings_eq_nil (env : ExtractEnv) (images : List (String × ImageBytes))
    (h : successfulEncodings env images = []) :
    ∀ p ∈ images, (extract_encoding env p.2).success = false := by
  intro p hp
  have hmem : (p.1, extract_encoding env p.2) ∈ extractionResults env images :=
    List.mem_map_of_mem _ hp
  have hnone := List.forall_none_of_filterMap_eq_nil h _ hmem
  rcases extract_encoding_cases env p.2 with ⟨hs, henc, -⟩ | ⟨hs, -, -⟩
  · exfalso
    obtain ⟨e, he⟩ := Option.isSome_iff_exists.mp henc
    rw [if_pos hs, he] at hnone
    cases hnone
  · exact hs

/-- If every per-angle extraction failed, the `errors` accumulator has
exactly one angle-tagged entry per input image, in order. -/
theorem taggedErrors_eq_map (env : ExtractEnv) (images : List (String × ImageBytes))
    (h : ∀ p ∈ images, (extract_encoding env p.2).success = false) :
    taggedErrors env images =
      images.map (fun p => (p.1, (extract_encoding env p.2).error.getD ExtractError.noFace)) := by
  induction images with
  | nil => rfl
  | cons q t ih =>
    have hq := h q (by simp)
    rcases extract_encoding_cases env q.2 with ⟨hs, -, -⟩ | ⟨-, -, herr⟩
    · rw [hq] at hs; cases hs
    · obtain ⟨e, he⟩ := Option.isSome_iff_exists.mp herr
      have ih' := ih (fun p hp => h p (List.mem_cons_of_mem _ hp))
      have hstep : taggedErrors env (q :: t) = (q.1, e) :: taggedErrors env t := by
        simp [taggedErrors, extractionResults, List.filterMap_cons, hq, he]
      rw [hstep, ih']
      simp [he]

/-- Claim C3: for a nonempty angle-to-image mapping, the aggregator extracts
per angle independently; if no angle yields a vector it fails with the
angle-tagged union of every per-angle error, one entry per angle in order;
otherwise it returns `np.mean` of the successful vectors, which is their
element-wise arithmetic mean. -/
theorem process_face_images_spec (env : ExtractEnv) (images : List (String × ImageBytes))
    (n : Nat) (hne : images ≠ []) :
    (successfulEncodings env images = [] →
      process_face_images env images = Except.error (ProcessError.processingFailed
        (images.map (fun p =>
          (p.1, (extract_encoding env p.2).error.getD ExtractError.noFace)))) ∧
      ∀ p ∈ images, (extract_encoding env p.2).success = false ∧
        (extract_encoding env p.2).error.isSome) ∧
    (successfulEncodings env images ≠ [] →
      process_face_images env images =
        Except.ok (avgEncoding (successfulEncodings env images))) ∧
    (∀ vs : List (List ℚ), vs ≠ [] → (∀ v ∈ vs, v.length = n) →
      (avgEncoding vs).length = n ∧
      ∀ k, k < n →
        (avgEncoding vs).getD k 0 = (vs.map (fun v => v.getD k 0)).sum / vs.length) := by
  have hne' : images.isEmpty = false := by simpa [List.isEmpty_iff] using hne
  refine ⟨?_, ?_, ?_⟩
  · intro hnil
    have hfail := successfulEncodings_eq_nil env images hnil
    refine ⟨?_, ?_⟩
    · rw [← taggedErrors_eq_map env images hfail]
      simp [process_face_images, hne', hnil]
    · intro p hp
      refine ⟨hfail p hp, ?_⟩
      rcases extract_encoding_cases env p.2 with ⟨hs, -, -⟩ | ⟨-, -, herr⟩
      · rw [hfail p hp] at hs; cases hs
      · exact herr
  · intro hnonnil
    have : (successfulEncodings env images).isEmpty = false := by
      simpa [List.isEmpty_iff] using hnonnil
    simp [process_face_images, hne', this]
  · intro vs hvs hdim
    have hhead : (vs.headD []).length = n := by
      cases vs with
      | nil => exact absurd rfl hvs
      | cons v t => exact hdim v (by simp)
    have hsumlen : (vs.foldr vecAdd (List.replicate n 0)).length = n := sumVec_length n vs hdim
    have havg : avgEncoding vs =
        (vs.foldr vecAdd (List.replicate n 0)).map (fun x => x / (vs.length : ℚ)) := by
      unfold avgEncoding
      rw [hhead]
    constructor
    · rw [havg, List.length_map, hsumlen]
    · intro k hk
      have hk1 : k < (vs.foldr vecAdd (List.replicate n 0)).length := by
        rw [hsumlen]; exact hk
      have hk2 : k < ((vs.foldr vecAdd (List.replicate n 0)).map
          (fun x => x / (vs.length : ℚ))).length := by simpa using hk1
      rw [havg, List.getD_eq_getElem _ 0 hk2, List.getElem_map,
        ← List.getD_eq_getElem _ 0 hk1, sumVec_getD n k vs hdim hk]

/-- Environment for the **C3** witness: the `front` image has no face, the
`left` image is too blurry, so the aggregate fails with both angle-tagged
reasons. -/
def envC3 : ExtractEnv :=
  { imageDepsAvailable := true, importError := "", frAvailable := true, cv2Available := true,
    preprocess := fun b => Except.ok b,
    faceLocations := fun px => if px = 0 then [] else [(0, 100, 100, 0)],
    faceEncodings := fun _ _ => [[1, 2]],
    crop := fun p _ => p,
    laplacianVariance := fun _ => 90,
    blurRaises := fun _ => false }

/-- Witness for **C3**: both failure enumeration (at `envC3`) and the
element-wise mean, at concrete inputs. -/
theorem process_face_images_spec_witness :
    (process_face_images envC3 [("front", 0), ("left", 1)] =
      Except.error (ProcessError.processingFailed
        [("front", ExtractError.noFace),
         ("left", ExtractError.qualityFailed (QualityReason.tooBlurry 90))])) ∧
    ((avgEncoding [[1, 2], [3, 4]]).length = 2 ∧
      (avgEncoding [[1, 2], [3, 4]]).getD 0 0 =
        (([[1, 2], [3, 4]] : List (List ℚ)).map (fun v => v.getD 0 0)).sum / 2) := by
  have h := process_face_images_spec envC3 [("front", 0), ("left", 1)] 2 (by simp)
  have hnil : successfulEncodings envC3 [("front", 0), ("left", 1)] = [] := by
    norm_num [successfulEncodings, extractionResults, extract_encoding, envC3,
      validate_face_quality, check_blur, List.filterMap_cons]
  have h1 := (h.1 hnil).1
  have h3 := h.2.2 [[1, 2], [3, 4]] (by simp) (by simp)
  constructor
  · rw [h1]
    norm_num [extract_encoding, envC3, validate_face_quality, check_blur]
  · exact ⟨h3.1, by simpa using h3.2 0 (by norm_num)⟩

/-! ## Registration: duplicate guard (C2) -/

/-- Claim C2 (code bug): the Duplicate Guard with its `HTTPException(409)`
conflict abort exists in the source (user_service.py lines 75-83) and is what
the claim and the spec describe — but it is unreachable.  Every registration
that passes `_validate_registration` raises `AttributeError` at
user_service.py line 70 (`collect_face_images` is a module-level function,
not a method of `FaceRecognitionService`) and surfaces as a 500 before the
aggregator or the duplicate check can run; even were that call fixed, the
guard's `find_match` would raise on the broken Identity Store.  The store is
returned unchanged — no record is created, but not because a conflict was
detected. -/
theorem register_face_data_bug (validatePassword : String → Option String)
    (store : Store) (request : RegistrationRequest)
    (face_images : List (String × ImageBytes))
    (hpw : validatePassword request.password = none)
    (hemail : store.users.any (fun u => u.email == request.email) = false) :
    register_new_user validatePassword store request face_images =
      (store, Except.error (RegError.internalError
        ("Face processing failed: " ++ attributeErrorCollect))) ∧
    (∀ s : Store, ∀ u : UserRecord,
      register_new_user validatePassword store request face_images ≠ (s, Except.ok u)) ∧
    ∀ d, RegError.internalError ("Face processing failed: " ++ attributeErrorCollect) ≠
      RegError.conflict d := by
  have hreg : register_new_user validatePassword store request face_images =
      (store, Except.error (RegError.internalError
        ("Face processing failed: " ++ attributeErrorCollect))) := by
    simp [register_new_user, hpw, hemail]
  refine ⟨hreg, ?_, by simp⟩
  intro s u
  rw [hreg]
  simp

/-- Store for the **C2** witness: one enrolled identity, no users yet. -/
def storeC2 : Store :=
  { users := [], encodings := [⟨"alice", [1, 2], "Alice", "alice@x"⟩] }

/-- Request for the **C2** witness. -/
def reqC2 : RegistrationRequest := ⟨"Bob", "bob@x", "hunter2"⟩

/-- Witness for **C2**: a concrete valid registration dies with the 500
`AttributeError` message, leaving the store unchanged and creating no
record. -/
theorem register_face_data_bug_witness :
    (register_new_user (fun _ => none) storeC2 reqC2 [("front", 1)] =
      (storeC2, Except.error (RegError.internalError
        ("Face processing failed: " ++ attributeErrorCollect)))) ∧
    (∀ s : Store, ∀ u : UserRecord,
      register_new_user (fun _ => none) storeC2 reqC2 [("front", 1)] ≠ (s, Except.ok u)) ∧
    ∀ d, RegError.internalError ("Face processing failed: " ++ attributeErrorCollect) ≠
      RegError.conflict d :=
  register_face_data_bug (fun _ => none) storeC2 reqC2 [("front", 1)] rfl rfl

/-! ## Identity store upsert (C6) -/

/-- Scan-and-replace-first formulation of the upsert body, used to reason
about `save_encoding_core`. -/
def upsertList (new : FaceEncodingWithMetadata) :
    List FaceEncodingWithMetadata → List FaceEncodingWithMetadata
  | [] => [new]
  | e :: rest => if e.user_id == new.user_id then new :: rest else e :: upsertList new rest

theorem save_encoding_core_eq_upsertList (storage : List FaceEncodingWithMetadata)
    (user_id : String) (encoding : List ℚ) (name email : String) :
    save_encoding_core storage user_id encoding name email =
      upsertList ⟨user_id, encoding, name, email⟩ storage := by
  induction storage with
  | nil => rfl
  | cons e rest ih =>
    simp only [save_encoding_core] at ih ⊢
    by_cases he : (e.user_id == user_id) = true
    · rw [List.findIdx?_cons, if_pos he]
      simp [upsertList, he]
    · rw [List.findIdx?_cons, if_neg he, List.findIdx?_start_succ]
      rcases hfi : rest.findIdx? (fun enc => enc.user_id == user_id) with - | j
      · rw [hfi] at ih
        rw [hfi, upsertList, if_neg he, ← ih]
        simp
      · rw [hfi] at ih
        rw [hfi, upsertList, if_neg he, ← ih]
        simp

theorem upsertList_mem_ids (new : FaceEncodingWithMetadata)
    (storage : List FaceEncodingWithMetadata)
    (h : new.user_id ∈ storage.map (fun e => e.user_id)) :
    (upsertList new storage).map (fun e => e.user_id) = storage.map (fun e => e.user_id) ∧
    new ∈ upsertList new storage := by
  induction storage with
  | nil => simp at h
  | cons e rest ih =>
    by_cases he : (e.user_id == new.user_id) = true
    · have heq : e.user_id = new.user_id := by simpa using he
      simp [upsertList, he, heq]
    · have hne : e.user_id ≠ new.user_id := by simpa using he
      have hmem : new.user_id ∈ rest.map (fun e => e.user_id) := by
        rcases List.mem_map.mp h with ⟨x, hx, hxe⟩
        rcases List.mem_cons.mp hx with rfl | hx
        · exact absurd hxe.symm hne.symm
        · exact List.mem_map.mpr ⟨x, hx, hxe⟩
      obtain ⟨h1, h2⟩ := ih hmem
      constructor
      · simp [upsertList, he, h1]
      · simp [upsertList, he, h2]

theorem upsertList_not_mem (new : FaceEncodingWithMetadata)
    (storage : List FaceEncodingWithMetadata)
    (h : new.user_id ∉ storage.map (fun e => e.user_id)) :
    upsertList new storage = storage ++ [new] := by
  induction storage with
  | nil => rfl
  | cons e rest ih =>
    have hne : e.user_id ≠ new.user_id := by
      intro heq
      exact h (by simp [heq])
    have hrest : new.user_id ∉ rest.map (fun e => e.user_id) := by
      intro hmem
      exact h (by simp [hmem])
    simp [upsertList, hne, ih hrest]

theorem upsertList_nodup (new : FaceEncodingWithMetadata)
    (storage : List FaceEncodingWithMetadata)
    (h : (storage.map (fun e => e.user_id)).Nodup) :
    ((upsertList new storage).map (fun e => e.user_id)).Nodup := by
  by_cases hmem : new.user_id ∈ storage.map (fun e => e.user_id)
  · rw [(upsertList_mem_ids new storage hmem).1]
    exact h
  · rw [upsertList_not_mem new storage hmem, List.map_append]
    simp [List.nodup_append, h, hmem, List.disjoint_singleton]

/-- For a present `user_id`, the scan of the upsert body finds the first
index holding it. -/
theorem findIdx_of_mem_ids (storage : List FaceEncodingWithMetadata) (user_id : String)
    (h : user_id ∈ storage.map (fun e => e.user_id)) :
    ∃ i, storage.findIdx? (fun enc => enc.user_id == user_id) = some i ∧
      i < storage.length ∧ (storage.getD i defaultRecord).user_id = user_id := by
  induction storage with
  | nil => simp at h
  | cons e rest ih =>
    by_cases he : (e.user_id == user_id) = true
    · refine ⟨0, ?_, by simp, by simpa using he⟩
      rw [List.findIdx?_cons, if_pos he]
    · have hmem : user_id ∈ rest.map (fun e => e.user_id) := by
        rcases List.mem_map.mp h with ⟨x, hx, hxe⟩
        rcases List.mem_cons.mp hx with rfl | hx
        · exact absurd (by simpa using hxe : x.user_id = user_id) (by simpa using he)
        · exact List.mem_map.mpr ⟨x, hx, hxe⟩
      obtain ⟨j, hfi, hj, hgd⟩ := ih hmem
      refine ⟨j + 1, ?_, by simpa using hj, by simpa using hgd⟩
      rw [List.findIdx?_cons, if_neg he, List.findIdx?_start_succ, hfi]
      rfl

theorem save_encoding_core_nodup (storage : List FaceEncodingWithMetadata)
    (user_id : String) (encoding : List ℚ) (name email : String)
    (h : (storage.map (fun e => e.user_id)).Nodup) :
    ((save_encoding_core storage user_id encoding name email).map (fun e => e.user_id)).Nodup := by
  rw [save_encoding_core_eq_upsertList]
  exact upsertList_nodup _ _ h

theorem saveAllCore_nodup (calls : List (String × List ℚ × String × String)) :
    ∀ storage : List FaceEncodingWithMetadata,
    (storage.map (fun e => e.user_id)).Nodup →
    ((saveAllCore storage calls).map (fun e => e.user_id)).Nodup := by
  induction calls with
  | nil =>
    intro storage h
    simpa [saveAllCore] using h
  | cons c t ih =>
    intro storage h
    rw [saveAllCore, List.foldl_cons]
    exact ih _ (save_encoding_core_nodup _ _ _ _ _ h)

theorem nodup_filter_id_length (l : List FaceEncodingWithMetadata)
    (h : (l.map (fun e => e.user_id)).Nodup) (u : String) :
    (l.filter (fun e => e.user_id == u)).length ≤ 1 := by
  induction l with
  | nil => simp
  | cons e rest ih =>
    rw [List.map_cons] at h
    have hparts := List.nodup_cons.mp h
    by_cases he : (e.user_id == u) = true
    · have heu : e.user_id = u := by simpa using he
      have hfil : rest.filter (fun x => x.user_id == u) = [] := by
        rw [List.filter_eq_nil_iff]
        intro x hx
        intro hxu
        refine hparts.1 (List.mem_map.mpr ⟨x, hx, ?_⟩)
        show x.user_id = e.user_id
        have hxu' : x.user_id = u := by simpa using hxu
        rw [hxu', heu]
      simp [List.filter_cons, he, hfil]
    · simpa [List.filter_cons, he] using ih hparts.2

/-- Claim C6 (code bug): the upsert-by-key semantics the claim describes are
implemented verbatim at face_service.py lines 189-208 — but as dead code:
`save_encoding` calls `self._load_encodings_storage()` first, which raises on
the never-assigned `encodings_file` attribute, so every save raises
`FaceRecognitionError` before any mutation and no record is ever persisted.
The first conjuncts evaluate the shipped `save_encoding` at the failing
input; the rest characterize the dead upsert body, which does enforce the
claimed invariant: a present id is replaced wholesale in place (at the first
index holding it, with the multiset of stored ids unchanged), an absent id
appends exactly one record, and any sequence of upsert steps from a
duplicate-free store keeps the per-id record count at most one. -/
theorem save_encoding_storage_bug (storage : List FaceEncodingWithMetadata)
    (calls : List (String × List ℚ × String × String))
    (user_id : String) (encoding : List ℚ) (name email : String)
    (hnodup : (storage.map (fun e => e.user_id)).Nodup) :
    save_encoding user_id encoding name email =
      Except.error ("Failed to save encoding: " ++ attributeErrorEncodingsFile) ∧
    (∀ st : List FaceEncodingWithMetadata,
      save_encoding user_id encoding name email ≠ Except.ok st) ∧
    ((saveAllCore storage calls).map (fun e => e.user_id)).Nodup ∧
    (∀ u, ((saveAllCore storage calls).filter (fun e => e.user_id == u)).length ≤ 1) ∧
    (user_id ∈ storage.map (fun e => e.user_id) →
      (save_encoding_core storage user_id encoding name email).map (fun e => e.user_id) =
        storage.map (fun e => e.user_id) ∧
      (⟨user_id, encoding, name, email⟩ : FaceEncodingWithMetadata) ∈
        save_encoding_core storage user_id encoding name email ∧
      ∃ i, i < storage.length ∧ (storage.getD i defaultRecord).user_id = user_id ∧
        save_encoding_core storage user_id encoding name email =
          storage.set i ⟨user_id, encoding, name, email⟩) ∧
    (user_id ∉ storage.map (fun e => e.user_id) →
      save_encoding_core storage user_id encoding name email =
        storage ++ [⟨user_id, encoding, name, email⟩]) := by
  have hall := saveAllCore_nodup calls storage hnodup
  refine ⟨rfl, ?_, hall, fun u => nodup_filter_id_length _ hall u, ?_, ?_⟩
  · intro st
    simp [save_encoding, load_encodings_storage]
  · intro hmem
    obtain ⟨i, hfi, hi, hgd⟩ := findIdx_of_mem_ids storage user_id hmem
    have hset : save_encoding_core storage user_id encoding name email =
        storage.set i ⟨user_id, encoding, name, email⟩ := by
      rw [save_encoding_core, hfi]
    refine ⟨?_, ?_, i, hi, hgd, hset⟩
    · rw [save_encoding_core_eq_upsertList]
      exact (upsertList_mem_ids _ _ hmem).1
    · rw [save_encoding_core_eq_upsertList]
      exact (upsertList_mem_ids _ _ hmem).2
  · intro hmem
    rw [save_encoding_core_eq_upsertList]
    exact upsertList_not_mem _ _ hmem

/-- Witness for **C6** at a concrete duplicate-free store, one re-enrollment
step for a present id and one fresh append. -/
theorem save_encoding_storage_bug_witness :
    save_encoding "bob" [9] "B2" "b2" =
      Except.error ("Failed to save encoding: " ++ attributeErrorEncodingsFile) ∧
    (∀ st : List FaceEncodingWithMetadata,
      save_encoding "bob" [9] "B2" "b2" ≠ Except.ok st) ∧
    ((saveAllCore witnessPop [("bob", [9], "B2", "b2"), ("carol", [7], "C", "c")]).map
      (fun e => e.user_id)).Nodup ∧
    (∀ u, ((saveAllCore witnessPop [("bob", [9], "B2", "b2"), ("carol", [7], "C", "c")]).filter
      (fun e => e.user_id == u)).length ≤ 1) ∧
    ("bob" ∈ witnessPop.map (fun e => e.user_id) →
      (save_encoding_core witnessPop "bob" [9] "B2" "b2").map (fun e => e.user_id) =
        witnessPop.map (fun e => e.user_id) ∧
      (⟨"bob", [9], "B2", "b2"⟩ : FaceEncodingWithMetadata) ∈
        save_encoding_core witnessPop "bob" [9] "B2" "b2" ∧
      ∃ i, i < witnessPop.length ∧ (witnessPop.getD i defaultRecord).user_id = "bob" ∧
        save_encoding_core witnessPop "bob" [9] "B2" "b2" =
          witnessPop.set i ⟨"bob", [9], "B2", "b2"⟩) ∧
    ("bob" ∉ witnessPop.map (fun e => e.user_id) →
      save_encoding_core witnessPop "bob" [9] "B2" "b2" =
        witnessPop ++ [⟨"bob", [9], "B2", "b2"⟩]) :=
  save_encoding_storage_bug witnessPop [("bob", [9], "B2", "b2"), ("carol", [7], "C", "c")]
    "bob" [9] "B2" "b2" (by simp [witnessPop])

/-! ## Calibrator lemmas and C7 -/

theorem foldl_max_spec (t : List ℚ) : ∀ a : ℚ,
    t.foldl max a ∈ a :: t ∧ a ≤ t.foldl max a ∧ ∀ x ∈ t, x ≤ t.foldl max a := by
  induction t with
  | nil => intro a; exact ⟨by simp, le_refl a, by simp⟩
  | cons y ys ih =>
    intro a
    obtain ⟨hmem, hle, hall⟩ := ih (max a y)
    rw [List.foldl_cons]
    refine ⟨?_, le_trans (le_max_left a y) hle, ?_⟩
    · rcases List.mem_cons.mp hmem with heq | hmem'
      · rcases max_choice a y with hm | hm <;> rw [hm] at heq ⊢ <;> simp [heq]
      · simp [hmem']
    · intro x hx
      rcases List.mem_cons.mp hx with rfl | hx
      · exact le_trans (le_max_right a x) hle
      · exact hall x hx

theorem foldl_min_spec (t : List ℚ) : ∀ a : ℚ,
    t.foldl min a ∈ a :: t ∧ t.foldl min a ≤ a ∧ ∀ x ∈ t, t.foldl min a ≤ x := by
  induction t with
  | nil => intro a; exact ⟨by simp, le_refl a, by simp⟩
  | cons y ys ih =>
    intro a
    obtain ⟨hmem, hle, hall⟩ := ih (min a y)
    rw [List.foldl_cons]
    refine ⟨?_, le_trans hle (min_le_left a y), ?_⟩
    · rcases List.mem_cons.mp hmem with heq | hmem'
      · rcases min_choice a y with hm | hm <;> rw [hm] at heq ⊢ <;> simp [heq]
      · simp [hmem']
    · intro x hx
      rcases List.mem_cons.mp hx with rfl | hx
      · exact le_trans hle (min_le_right a x)
      · exact hall x hx

/-- On a nonempty list, `npMax` is an upper bound attained in the list. -/
theorem npMax_spec (l : List ℚ) (h : l ≠ []) : npMax l ∈ l ∧ ∀ x ∈ l, x ≤ npMax l := by
  match l, h with
  | a :: t, _ =>
    have hfold : npMax (a :: t) = t.foldl max a := by
      simp [npMax, max_self]
    obtain ⟨hmem, -, hall⟩ := foldl_max_spec t a
    rw [hfold]
    refine ⟨hmem, ?_⟩
    intro x hx
    rcases List.mem_cons.mp hx with rfl | hx
    · exact (foldl_max_spec t x).2.1
    · exact hall x hx

/-- On a nonempty list, `npMin` is a lower bound attained in the list. -/
theorem npMin_spec (l : List ℚ) (h : l ≠ []) : npMin l ∈ l ∧ ∀ x ∈ l, npMin l ≤ x := by
  match l, h with
  | a :: t, _ =>
    have hfold : npMin (a :: t) = t.foldl min a := by
      simp [npMin, min_self]
    obtain ⟨hmem, -, hall⟩ := foldl_min_spec t a
    rw [hfold]
    refine ⟨hmem, ?_⟩
    intro x hx
    rcases List.mem_cons.mp hx with rfl | hx
    · exact (foldl_min_spec t x).2.1
    · exact hall x hx

/-- The strict-improvement sweep loop: the final accuracy dominates the
initial one and every candidate's accuracy, and the final pair either is the
untouched initial pair or records a candidate together with its accuracy. -/
theorem sweep_foldl_spec (g : ℚ → ℚ) (L : List ℚ) : ∀ init : ℚ × ℚ,
    init.1 ≤ (L.foldl (fun best t => if best.1 < g t then (g t, t) else best) init).1 ∧
    (∀ t ∈ L, g t ≤ (L.foldl (fun best t => if best.1 < g t then (g t, t) else best) init).1) ∧
    ((L.foldl (fun best t => if best.1 < g t then (g t, t) else best) init) = init ∨
      ((L.foldl (fun best t => if best.1 < g t then (g t, t) else best) init).2 ∈ L ∧
        g (L.foldl (fun best t => if best.1 < g t then (g t, t) else best) init).2 =
          (L.foldl (fun best t => if best.1 < g t then (g t, t) else best) init).1)) := by
  induction L with
  | nil => intro init; exact ⟨le_refl _, by simp, Or.inl rfl⟩
  | cons t0 rest ih =>
    intro init
    rw [List.foldl_cons]
    obtain ⟨h1, h2, h3⟩ := ih (if init.1 < g t0 then (g t0, t0) else init)
    have hinit_le : init.1 ≤ (if init.1 < g t0 then (g t0, t0) else init).1 := by
      by_cases h0 : init.1 < g t0
      · rw [if_pos h0]; exact le_of_lt h0
      · rw [if_neg h0]
    refine ⟨le_trans hinit_le h1, ?_, ?_⟩
    · intro t ht
      rcases List.mem_cons.mp ht with rfl | ht
      · refine le_trans ?_ h1
        by_cases h0 : init.1 < g t
        · rw [if_pos h0]
        · rw [if_neg h0]; exact le_of_not_lt h0
      · exact h2 t ht
    · rcases h3 with heq | ⟨hmem, hval⟩
      · by_cases h0 : init.1 < g t0
        · right
          rw [heq, if_pos h0]
          exact ⟨by simp, rfl⟩
        · left
          rw [heq, if_neg h0]
      · right
        exact ⟨List.mem_cons_of_mem _ hmem, hval⟩

/-- Counterexample to claim C7: the implemented grid stops at `0.75` and excludes
the claimed endpoint `0.80`.  With one genuine distance `0.78` and one
impostor distance `0.9`, every implemented candidate has accuracy `0`, the
tool recommends the untouched default `0.6`, yet the claimed candidate
`0.80` would have accuracy `100` — so the recommendation does not maximize
accuracy over the claimed `0.30..0.80` grid. -/
theorem analyze_tolerance_counterexample :
    ((4 : ℚ) / 5 ∉ toleranceGrid) ∧
    recommendedTolerance [39 / 50] [9 / 10] = 3 / 5 ∧
    accuracy [39 / 50] [9 / 10] (3 / 5) = 0 ∧
    accuracy [39 / 50] [9 / 10] (4 / 5) = 100 := by
  refine ⟨?_, ?_, ?_, ?_⟩ <;>
    norm_num [toleranceGrid, List.range', recommendedTolerance, sweepBest, accuracy,
      falseAcceptRate, falseRejectRate]

/-- Claim C7, amended: the calibrator sweeps the grid `0.30` to `0.75` in
steps of `0.05` (`0.80` is excluded); FAR is the fraction of negative
distances strictly below the candidate and FRR the fraction of positive
distances strictly above it, `accuracy = 100 − (FAR% + FRR%)`; whenever some
grid candidate achieves strictly positive accuracy, the recommended
threshold is a grid candidate maximizing accuracy (otherwise the default
`0.6` is reported); perfect separation is reported exactly when
`max(positive) < min(negative)`. -/
theorem analyze_tolerance_amended (pos neg : List ℚ) (hpos : pos ≠ []) (hneg : neg ≠ [])
    (hex : ∃ t ∈ toleranceGrid, 0 < accuracy pos neg t) :
    recommendedTolerance pos neg ∈ toleranceGrid ∧
    (∀ t ∈ toleranceGrid, accuracy pos neg t ≤ accuracy pos neg (recommendedTolerance pos neg)) ∧
    npMax pos ∈ pos ∧ (∀ x ∈ pos, x ≤ npMax pos) ∧
    npMin neg ∈ neg ∧ (∀ x ∈ neg, npMin neg ≤ x) ∧
    (perfectSeparation pos neg = true ↔ npMax pos < npMin neg) := by
  obtain ⟨h1, h2, h3⟩ := sweep_foldl_spec (accuracy pos neg) toleranceGrid (0, 6 / 10)
  have hsweep : sweepBest pos neg =
      toleranceGrid.foldl
        (fun best t => if best.1 < accuracy pos neg t then (accuracy pos neg t, t) else best)
        (0, 6 / 10) := rfl
  obtain ⟨t0, ht0, hacc0⟩ := hex
  have hpos1 : 0 < (sweepBest pos neg).1 := by
    rw [hsweep]
    exact lt_of_lt_of_le hacc0 (h2 t0 ht0)
  have hbest : (sweepBest pos neg).2 ∈ toleranceGrid ∧
      accuracy pos neg (sweepBest pos neg).2 = (sweepBest pos neg).1 := by
    rcases h3 with heq | hgood
    · exfalso
      rw [hsweep, heq] at hpos1
      exact lt_irrefl 0 hpos1
    · rw [hsweep]
      exact hgood
  obtain ⟨hmaxmem, hmaxall⟩ := npMax_spec pos hpos
  obtain ⟨hminmem, hminall⟩ := npMin_spec neg hneg
  refine ⟨hbest.1, ?_, hmaxmem, hmaxall, hminmem, hminall, ?_⟩
  · intro t ht
    rw [recommendedTolerance, hbest.2, hsweep]
    exact h2 t ht
  · simp [perfectSeparation, sub_pos]

/-- Witness for the amended **C7**: a separable dataset where candidate
`0.40` attains accuracy `100`. -/
theorem analyze_tolerance_amended_witness :
    recommendedTolerance [2 / 5] [7 / 10] ∈ toleranceGrid ∧
    (∀ t ∈ toleranceGrid,
      accuracy [2 / 5] [7 / 10] t ≤ accuracy [2 / 5] [7 / 10] (recommendedTolerance [2 / 5] [7 / 10])) ∧
    npMax [2 / 5] ∈ [(2 : ℚ) / 5] ∧ (∀ x ∈ [(2 : ℚ) / 5], x ≤ npMax [2 / 5]) ∧
    npMin [7 / 10] ∈ [(7 : ℚ) / 10] ∧ (∀ x ∈ [(7 : ℚ) / 10], npMin [7 / 10] ≤ x) ∧
    (perfectSeparation [2 / 5] [7 / 10] = true ↔ npMax [2 / 5] < npMin [7 / 10]) :=
  analyze_tolerance_amended [2 / 5] [7 / 10] (by simp) (by simp)
    ⟨2 / 5, by norm_num [toleranceGrid, List.range'],
      by norm_num [accuracy, falseAcceptRate, falseRejectRate]⟩

end SmartGlass
